import Mathlib

/-!
# Verification of the eAccounts scrape/login core

A shallow embedding, in Lean 4, of the parts of `src/server/scraper.py` and
`src/server/login.py` that the frozen claims are about, together with
theorems settling each claim.

Conventions used throughout:

* Python strings are embedded as `List Char`.  Byte-level details of the
  transport encoding are out of scope; Python's `str` type is a sequence of
  unicode code points and so is `List Char`.
* Python string indices can be negative and slices clamp; `sliceIdx`,
  `pySlice` and `pyFind` transcribe CPython's normalisation rules for the
  slice and `str.find` operations actually reached by this code.
* `int(...)` is transcribed by `pyInt` (optional surrounding ASCII
  whitespace, an optional single sign, a nonempty digit run in which single
  underscores may separate digits).  CPython additionally accepts unicode
  digits and spaces; none of the claims depend on those.
* Network traffic, `BeautifulSoup` queries, the filesystem and the clock
  are the embedding boundary: they enter as explicit oracle parameters
  (response lists, response-to-value functions, latency functions) so that
  every theorem quantifies over what the environment may answer.
-/

namespace EAccounts

/-! ## Python string primitives -/

/-- First index of `'|'` in a list, if any. -/
def findPipe : List Char → Option Nat
  | [] => none
  | c :: rest => if c = '|' then some 0 else (findPipe rest).map (· + 1)

/-- CPython `str.find` start normalisation for a string of length `len`:
a negative `start` is clamped to `max 0 (len + start)`. -/
def pyStart (len : Nat) (start : Int) : Nat :=
  if start < 0 then (↑len + start).toNat else start.toNat

/-- CPython `text.find('|', start)`: the absolute index of the first `'|'`
at or after the normalised start (`none` for Python's `-1`). -/
def pyFind (text : List Char) (start : Int) : Option Nat :=
  (findPipe (text.drop (pyStart text.length start))).map (· + pyStart text.length start)

/-- CPython slice-endpoint normalisation for a string of length `len`:
negative indices count from the end (clamped below by 0), positive ones are
clamped above by `len`. -/
def sliceIdx (len : Nat) (i : Int) : Nat :=
  if i < 0 then (↑len + i).toNat else min i.toNat len

/-- CPython `text[a:b]` for possibly-negative `a`, `b`. -/
def pySlice (text : List Char) (a b : Int) : List Char :=
  (text.take (sliceIdx text.length b)).drop (sliceIdx text.length a)

/-- ASCII whitespace stripped by CPython `int(...)`. -/
def isPySpace (c : Char) : Bool :=
  c = ' ' || c = '\t' || c = '\n' || c = '\r' || c = '\x0b' || c = '\x0c'

/-- ASCII decimal digit. -/
def isDigitCh (c : Char) : Bool := '0' ≤ c && c ≤ '9'

/-- Numeric value of an ASCII digit. -/
def digitVal (c : Char) : Nat := c.toNat - 48

/-- Digit run after its first digit, as accepted by CPython `int`: plain
digits, with a single `'_'` allowed between two digits. `acc` is the value
of the digits already consumed. -/
def pyDigits : List Char → Nat → Option Nat
  | [], acc => some acc
  | c :: rest, acc =>
    if c = '_' then
      match rest with
      | [] => none
      | c' :: rest' =>
        if isDigitCh c' then pyDigits rest' (acc * 10 + digitVal c') else none
    else if isDigitCh c then pyDigits rest (acc * 10 + digitVal c) else none

/-- A nonempty digit run (first character must be a digit). -/
def pyIntDigits (l : List Char) : Option Nat :=
  match l with
  | [] => none
  | c :: rest => if isDigitCh c then pyDigits rest (digitVal c) else none

/-- Strip leading and trailing ASCII whitespace. -/
def trimPySpaces (s : List Char) : List Char :=
  ((s.dropWhile isPySpace).reverse.dropWhile isPySpace).reverse

/-- CPython `int(s)` (base 10): strip whitespace, optional single sign,
nonempty digit run.  `none` models `ValueError`. -/
def pyInt (s : List Char) : Option Int :=
  match trimPySpaces s with
  | [] => none
  | c :: rest =>
    if c = '+' then (pyIntDigits rest).map Int.ofNat
    else if c = '-' then (pyIntDigits rest).map (fun n => -(n : Int))
    else (pyIntDigits (c :: rest)).map Int.ofNat

/-- Substring test, Python's `needle in hay` (an empty needle is found). -/
def containsSub (hay needle : List Char) : Bool :=
  if needle.isPrefixOf hay then true
  else
    match hay with
    | [] => false
    | _ :: t => containsSub t needle

/-- ASCII `str.lower()`. -/
def toLowerL (s : List Char) : List Char := s.map Char.toLower

/-! ## Delta protocol codec (`_parse_delta_response`, scraper.py 319-354) -/

/-- One decoded part of an ASP.NET AJAX delta response, the dict
`{'type': …, 'id': …, 'content': …}` built at scraper.py line 349. -/
structure DeltaPart where
  ptype : List Char
  pid : List Char
  content : List Char
deriving DecidableEq

/-- One pass of the `while` body of `_parse_delta_response` from absolute
position `pos`: locate three `'|'` separators, parse the length field with
`int(...)`, slice out type, id and `length` characters of content, and
report `(declared length, content start, part, next position)`.  `none` is
any of the `break`s (no separator, or `int` raised `ValueError`). -/
def readPart (text : List Char) (pos : Int) : Option (Int × Nat × DeltaPart × Int) :=
  match pyFind text pos with
  | none => none
  | some pipe1 =>
    match pyInt (pySlice text pos ↑pipe1) with
    | none => none
    | some length =>
      match pyFind text (↑pipe1 + 1) with
      | none => none
      | some pipe2 =>
        let ptype := pySlice text (↑pipe1 + 1) ↑pipe2
        match pyFind text (↑pipe2 + 1) with
        | none => none
        | some pipe3 =>
          let pid := pySlice text (↑pipe2 + 1) ↑pipe3
          let p3 := pipe3 + 1
          let content := pySlice text ↑p3 (↑p3 + length)
          some (length, p3, ⟨ptype, pid, content⟩, ↑p3 + length + 1)

/-- The `while pos < len(text)` loop of `_parse_delta_response`, run for at
most `fuel` iterations.  `some parts` means the Python loop returns `parts`
within `fuel` iterations; `none` means it is still running — so
`∀ fuel, … = none` is non-termination of the source loop. -/
def runParse (text : List Char) : Nat → Int → List DeltaPart → Option (List DeltaPart)
  | 0, _, _ => none
  | fuel + 1, pos, acc =>
    if pos < (text.length : Int) then
      match readPart text pos with
      | none => some acc
      | some (_, _, p, pos') => runParse text fuel pos' (acc ++ [p])
    else some acc

/-- The ASCII digit for a value below ten. -/
def digitChar : Nat → Char
  | 0 => '0'
  | 1 => '1'
  | 2 => '2'
  | 3 => '3'
  | 4 => '4'
  | 5 => '5'
  | 6 => '6'
  | 7 => '7'
  | 8 => '8'
  | _ => '9'

/-- Canonical decimal digits of `n`, exactly CPython `str(n)` for a
nonnegative `n`. -/
def natDigits (n : Nat) : List Char :=
  if _h : n < 10 then [digitChar n]
  else natDigits (n / 10) ++ [digitChar (n % 10)]
decreasing_by exact Nat.div_lt_self (by omega) (by norm_num)

/-- Re-encode one part as `len(content)|type|id|content|`, the framing the
round-trip law (spec §8) prescribes. -/
def encodePart (p : DeltaPart) : List Char :=
  natDigits p.content.length ++ '|' :: (p.ptype ++ '|' :: (p.pid ++ '|' :: (p.content ++ ['|'])))

/-- Re-encode a part list by concatenation. -/
def encodeParts (ps : List DeltaPart) : List Char := (ps.map encodePart).flatten

/-- Well-formedness of a part list for the round-trip law: type and id
fields carry no `'|'` separator (content may; it is length-framed). -/
def PartsWF (ps : List DeltaPart) : Prop :=
  ∀ p ∈ ps, '|' ∉ p.ptype ∧ '|' ∉ p.pid

instance : DecidablePred PartsWF := fun ps =>
  inferInstanceAs (Decidable (∀ p ∈ ps, '|' ∉ p.ptype ∧ '|' ∉ p.pid))

/-! ## Transaction-row extraction (`_parse_transaction_rows`, scraper.py 398-419)

The `BeautifulSoup` step (`find_all('tr')`, `find_all('td')`,
`get_text(strip=True)`) is the embedding boundary: a table enters as the
list of its rows, each row the list of its cells' stripped texts. -/

/-- One parsed transaction, the dict built at scraper.py lines 411-417. -/
structure TransactionRec where
  date : List Char
  account : List Char
  location : List Char
  ttype : List Char
  amount : List Char
deriving DecidableEq

/-- Match `\d{1,2}/` at the head of `s` (with the regex engine's
backtracking: two digits are taken only if a `/` follows them), returning
the remainder. -/
def matchD12Slash : List Char → Option (List Char)
  | a :: b :: rest =>
    if isDigitCh a then
      if b = '/' then some rest
      else if isDigitCh b then
        match rest with
        | '/' :: r => some r
        | _ => none
      else none
    else none
  | _ => none

/-- `re.match(r'^\d{1,2}/\d{1,2}/\d{4}', s)` truthiness: the pattern must
match a prefix of `s` (anything may follow the four year digits).  The
guard `row[0] and …` at scraper.py line 410 is subsumed: the empty string
never matches. -/
def matchDate (s : List Char) : Bool :=
  match matchD12Slash s with
  | none => false
  | some r1 =>
    match matchD12Slash r1 with
    | none => false
    | some r2 =>
      match r2 with
      | d1 :: d2 :: d3 :: d4 :: _ => isDigitCh d1 && isDigitCh d2 && isDigitCh d3 && isDigitCh d4
      | _ => false

/-- The dict built from `row[0], row[1], row[3], row[4], row[5]`
(scraper.py 411-417); `none` is the `IndexError` a too-short row raises. -/
def mkTransaction (row : List (List Char)) : Option TransactionRec := do
  let date ← row[0]?
  let account ← row[1]?
  let location ← row[3]?
  let ttype ← row[4]?
  let amount ← row[5]?
  pure ⟨date, account, location, ttype, amount⟩

/-- The row loop of `_parse_transaction_rows`: skip rows with fewer than 3
cells, keep rows whose first cell matches the date pattern, abort the whole
call (`none`, a raised `IndexError`) when a kept row lacks `row[3..5]`. -/
def parseTransactionRows : List (List (List Char)) → Option (List TransactionRec)
  | [] => some []
  | row :: rest =>
    if row.length < 3 then parseTransactionRows rest
    else if matchDate (row.headD []) then
      match mkTransaction row with
      | none => none
      | some t => (parseTransactionRows rest).map (t :: ·)
    else parseTransactionRows rest

/-- Which rows `_parse_transaction_rows` keeps, as a per-row selector:
at least 3 cells and a date-matching first cell. -/
def rowPick (row : List (List Char)) : Option TransactionRec :=
  if 3 ≤ row.length ∧ matchDate (row.headD []) = true then mkTransaction row else none

/-! ## Form state threading (`get_transactions` pagination, scraper.py 556-607)

Python dicts of strings are embedded as association lists with `dget`/`dset`
lookup and update; the network (`_ajax_post`), the pager-link scan
(`BeautifulSoup` over the result markup, scraper.py 568-575) and the row
parse of returned HTML enter as oracles. -/

/-- Exceptions of the scraper that cross function boundaries:
`SessionExpiredError` or any other `Exception`. -/
inductive PyExc where
  | sessionExpired
  | other (msg : List Char)
deriving DecidableEq

/-- Association-list embedding of a Python `dict[str, α]`. -/
abbrev Dict (α : Type) := List (List Char × α)

/-- `d.get(k)` / `d[k]` lookup. -/
def dget {α : Type} : Dict α → List Char → Option α
  | [], _ => none
  | kv :: rest, k => if kv.1 = k then some kv.2 else dget rest k

/-- `d[k] = v` update (in place for an existing key, appended otherwise,
as a Python dict does). -/
def dset {α : Type} : Dict α → List Char → α → Dict α
  | [], k, v => [(k, v)]
  | kv :: rest, k, v => if kv.1 = k then (k, v) :: rest else kv :: dset rest k v

/-- A form (or cookie) field map, `dict[str, str]`. -/
abbrev FormMap := Dict (List Char)

def hiddenFieldStr : List Char := "hiddenField".toList

def updatePanelStr : List Char := "updatePanel".toList

/-- `_extract_delta_hidden_fields` (scraper.py 368-375): the id→content map
of the `hiddenField` parts of a delta response, later entries overwriting
earlier ones as in a dict build. -/
def extractDeltaHidden (parts : List DeltaPart) : FormMap :=
  parts.foldl (fun m p => if p.ptype = hiddenFieldStr then dset m p.pid p.content else m) []

def vsKey : List Char := "__VIEWSTATE".toList

def evKey : List Char := "__EVENTVALIDATION".toList

def vsgKey : List Char := "__VIEWSTATEGENERATOR".toList

def etKey : List Char := "__EVENTTARGET".toList

def eaKey : List Char := "__EVENTARGUMENT".toList

def rsmKey : List Char := "ctl00$RadScriptManager1".toList

def ncKey : List Char := "__ncforminfo".toList

/-- The form for the next results page (scraper.py 582-592): a copy of the
original search form, with view-state, event-validation and view-state
generator taken from the latest delta response's hidden fields — falling
back to the original form's value when the delta did not carry the field —
the postback target redirected at the page link, and `__ncforminfo`
replaced only when the delta carried a non-empty one (the `if updated.get`
truthiness test at line 591).  `form_data[k]` at lines 584-586 indexes keys
the search form always carries (built at lines 505-538); it is embedded as
`(dget orig k).getD []`. -/
def nextPageForm (orig : FormMap) (delta : List DeltaPart) (target : List Char) : FormMap :=
  let updated := extractDeltaHidden delta
  let f := orig
  let f := dset f vsKey ((dget updated vsKey).getD ((dget orig vsKey).getD []))
  let f := dset f evKey ((dget updated evKey).getD ((dget orig evKey).getD []))
  let f := dset f vsgKey ((dget updated vsgKey).getD ((dget orig vsgKey).getD []))
  let f := dset f etKey target
  let f := dset f eaKey []
  let f := dset f rsmKey ("ctl00$MainContent$ctl00$MainContent$ResultPanelPanel|".toList ++ target)
  match dget updated ncKey with
  | some v => if v ≠ [] then dset f ncKey v else f
  | none => f

/-- The `result_html` scan (scraper.py 559-562): the content of the last
`updatePanel` part containing `ResultRadGrid`, `''` when there is none. -/
def lastResultHtml (parts : List DeltaPart) : List Char :=
  parts.foldl
    (fun acc p =>
      if p.ptype = updatePanelStr && containsSub p.content ("ResultRadGrid".toList) then
        p.content
      else acc)
    []

/-- Collect transactions from a delta response (scraper.py 550-552 and
596-599): rows of every `updatePanel` part whose content contains `<tr`.
`rowsOf` abstracts `_parse_transaction_rows` on raw markup; its `error`
is an exception it raises. -/
def rowsFromParts (rowsOf : List Char → Except PyExc (List TransactionRec)) :
    List DeltaPart → Except PyExc (List TransactionRec)
  | [] => .ok []
  | p :: rest =>
    if p.ptype = updatePanelStr && containsSub p.content ("<tr".toList) then
      match rowsOf p.content with
      | .error e => .error e
      | .ok ts =>
        match rowsFromParts rowsOf rest with
        | .error e => .error e
        | .ok more => .ok (ts ++ more)
    else rowsFromParts rowsOf rest

/-- The `while True` pagination loop (scraper.py 557-607), `fuel`-bounded
(`none` = still looping).  `post` is `_ajax_post` (its `error` a raised
exception), `findTarget` the pager-link scan for the given page number.
Besides the loop's own result, the run returns its submission trace: for
each loop postback, the pair (delta response the form was built from,
form submitted). -/
def txLoop (post : FormMap → Except PyExc (List DeltaPart))
    (findTarget : List Char → Nat → Option (List Char))
    (rowsOf : List Char → Except PyExc (List TransactionRec)) :
    Nat → FormMap → List DeltaPart → Nat → List TransactionRec →
      List (List DeltaPart × FormMap) →
      Option (Except PyExc (List TransactionRec) × List (List DeltaPart × FormMap))
  | 0, _, _, _, _, _ => none
  | fuel + 1, orig, delta, pageNum, allTx, trace =>
    let rh := lastResultHtml delta
    if rh = [] then some (.ok allTx, trace)
    else
      match findTarget rh pageNum with
      | none => some (.ok allTx, trace)
      | some target =>
        let pf := nextPageForm orig delta target
        match post pf with
        | .error e => some (.error e, trace ++ [(delta, pf)])
        | .ok delta' =>
          match rowsFromParts rowsOf delta' with
          | .error e => some (.error e, trace ++ [(delta, pf)])
          | .ok pageTx =>
            if pageTx = [] then some (.ok allTx, trace ++ [(delta, pf)])
            else
              txLoop post findTarget rowsOf fuel orig delta' (pageNum + 1) (allTx ++ pageTx)
                (trace ++ [(delta, pf)])

/-- The freshness discipline claimed for one pagination postback: each of
view-state, event-validation and view-state generator is the latest delta
response's hidden-field value when that response carries it, and the
original form's value otherwise; `__ncforminfo` likewise but only a
non-empty delta value replaces. -/
def FreshForm (orig : FormMap) (delta : List DeltaPart) (f : FormMap) : Prop :=
  (dget f vsKey = some ((dget (extractDeltaHidden delta) vsKey).getD ((dget orig vsKey).getD []))) ∧
  (dget f evKey = some ((dget (extractDeltaHidden delta) evKey).getD ((dget orig evKey).getD []))) ∧
  (dget f vsgKey = some ((dget (extractDeltaHidden delta) vsgKey).getD ((dget orig vsgKey).getD []))) ∧
  (dget f ncKey =
    match dget (extractDeltaHidden delta) ncKey with
    | some v => if v ≠ [] then some v else dget orig ncKey
    | none => dget orig ncKey)

/-- Adjacency of two entries of a `txLoop` trace: the delta response the
later form was built from is exactly the response the oracle gave to the
earlier form's postback. -/
def pageRel (post : FormMap → Except PyExc (List DeltaPart)) :
    (List DeltaPart × FormMap) → (List DeltaPart × FormMap) → Prop :=
  fun a b => post a.2 = .ok b.1

/-! ## Page fetch with one refresh retry (`_fetch_page`, scraper.py 223-275) -/

/-- An HTTP response as `_fetch_page` reads it: status code, `Location`
header (`''` when absent) and body text. -/
structure HttpResponse where
  status : Nat
  location : List Char
  body : List Char
deriving DecidableEq

/-- The disguised-expiry signal of scraper.py lines 254 and 267: a body
containing the auto-submit script and (case-insensitively) `idp`. -/
def samlSignature (body : List Char) : Bool :=
  containsSub body ("document.forms.theform.submit()".toList) &&
    containsSub (toLowerL body) ("idp".toList)

/-- The login/SSO markers of scraper.py line 238 on a redirect target. -/
def expiredRedirect (loc : List Char) : Bool :=
  containsSub (toLowerL loc) ("login".toList) || containsSub (toLowerL loc) ("cas".toList) ||
    containsSub (toLowerL loc) ("sso".toList)

/-- `_fetch_page` over a stream of GET responses.  `refreshOk` is the
outcome of `_refresh_via_saml` (which returns `True` or raises
`SessionExpiredError`, see `refreshViaSaml`).  Returns the fetched body or
the raised exception, together with the number of GETs issued and the
number of refresh cycles attempted; `none` if the response stream is
exhausted. -/
def fetchPageCore (responses : List HttpResponse) (refreshOk : Bool) :
    Option (Except PyExc (List Char) × Nat × Nat) :=
  match responses with
  | [] => none
  | r1 :: rest =>
    if r1.status = 302 then
      if expiredRedirect r1.location then some (.error .sessionExpired, 1, 0)
      else some (.error (.other ("Redirected to: ".toList ++ r1.location)), 1, 0)
    else if r1.status ≠ 200 then
      some (.error (.other ("Unexpected status".toList)), 1, 0)
    else if samlSignature r1.body then
      if refreshOk = false then some (.error .sessionExpired, 1, 1)
      else
        match rest with
        | [] => none
        | r2 :: _ =>
          if samlSignature r2.body then some (.error .sessionExpired, 2, 1)
          else if r2.status ≠ 200 then
            some (.error (.other ("Unexpected status after refresh".toList)), 2, 1)
          else some (.ok r2.body, 2, 1)
    else some (.ok r1.body, 1, 0)

/-! ## Silent session refresh (`_refresh_via_saml`, scraper.py 104-196)

Oracles: whether `sso_cookies.pkl` loaded, whether the expired page held a
SAML request form, the final response of the replayed chain (its URL, and
whether a SAML assertion form is in its body), the outcome of
`_complete_saml_flow` (cookies, or the exception it raised), and the
target-domain cookies sitting in the session jar (lines 171-174).  The
path never touches any second-factor endpoint: `_refresh_via_saml` and
`_complete_saml_flow` contain no Duo call. -/

/-- Lines 169-188: after the assertion branch did not return, accept the
jar cookies when the chain ended on the target domain, otherwise raise
`SessionExpiredError` (landing on a login page, or anywhere unexpected). -/
def refreshTail (url : List Char) (jar : FormMap) : Except PyExc FormMap :=
  if containsSub url ("transactcampus.com".toList) && !jar.isEmpty then .ok jar
  else if containsSub (toLowerL url) ("login".toList) ||
      containsSub (toLowerL url) ("cas".toList) then
    .error .sessionExpired
  else .error .sessionExpired

/-- The `try` body, lines 146-188: POST the SAML request, then branch on an
assertion form being present. -/
def refreshBody (postResult : Except PyExc (List Char × Bool))
    (flowResult : Except PyExc FormMap) (jar : FormMap) : Except PyExc FormMap :=
  match postResult with
  | .error e => .error e
  | .ok (url, samlFound) =>
    if samlFound then
      match flowResult with
      | .error e => .error e
      | .ok cookies => if cookies.isEmpty then refreshTail url jar else .ok cookies
    else refreshTail url jar

/-- `_refresh_via_saml`: missing/unreadable SSO cookies or a missing SAML
request form raise `SessionExpiredError` up front (lines 113-142); any
exception escaping the `try` body is converted to `SessionExpiredError`
(lines 190-196).  `ok` carries the fresh target-domain cookie dict the
method installs before returning `True`. -/
def refreshViaSaml (ssoLoaded reqFormFound : Bool)
    (postResult : Except PyExc (List Char × Bool)) (flowResult : Except PyExc FormMap)
    (jar : FormMap) : Except PyExc FormMap :=
  if !ssoLoaded then .error .sessionExpired
  else if !reqFormFound then .error .sessionExpired
  else
    match refreshBody postResult flowResult jar with
    | .ok c => .ok c
    | .error .sessionExpired => .error .sessionExpired
    | .error (.other _) => .error .sessionExpired

/-! ## Second-factor status polling (`_do_duo_iframe`, login.py 413-467)

Wall-clock time is embedded as a rational elapsed-seconds counter: the
budget check reads it, `time.sleep(3)` advances it by 3, and the `i`-th
status POST advances it by the oracle latency `lat i ≥ 0`.  (`float`
rounding is not modelled; all constants involved are exact in both.)
`_poll_duo_push` (login.py 665-728) runs the same loop against the v4
endpoints. -/

/-- Outcome of the polling loop, with the elapsed times at which the status
polls were issued.  `approvedFetch` records when the follow-up result fetch
(login.py 441-452) was issued; `hungOutOfFuel` means the loop was still
running when the iteration bound ran out. -/
inductive DuoPollResult where
  | approvedFetch (polls : List ℚ) (fetchAt : ℚ)
  | noResultUrl (polls : List ℚ)
  | pushDenied (polls : List ℚ)
  | pushTimedOut (polls : List ℚ)
  | challengeTimedOut (polls : List ℚ)
  | hungOutOfFuel (polls : List ℚ)
deriving DecidableEq

/-- The `while time.time() - start_time < DUO_POLL_TIMEOUT` loop of
login.py 417-467 with `DUO_POLL_TIMEOUT = 90` and `DUO_POLL_INTERVAL = 3`:
sleep 3, POST the status endpoint, then dispatch on the reported
`status_code` (`allow` fetches `result_url` when one is present, `deny`
and `timeout` raise, anything else loops).  `e` is elapsed seconds,
`i` the poll index, `acc` the poll times so far. -/
def duoPollLoop (status : Nat → List Char) (lat : Nat → ℚ) (resultUrl : Bool) :
    Nat → Nat → ℚ → List ℚ → DuoPollResult
  | 0, _, e, acc => if e < 90 then .hungOutOfFuel acc else .challengeTimedOut acc
  | fuel + 1, i, e, acc =>
    if e < 90 then
      let pt := e + 3
      let e2 := pt + lat i
      let acc2 := acc ++ [pt]
      if status i = "allow".toList then
        (if resultUrl then .approvedFetch acc2 e2 else .noResultUrl acc2)
      else if status i = "deny".toList then .pushDenied acc2
      else if status i = "timeout".toList then .pushTimedOut acc2
      else duoPollLoop status lat resultUrl fuel (i + 1) e2 acc2
    else .challengeTimedOut acc

/-! ## Credential-failure check (`perform_login`, login.py 154-189) -/

inductive LoginFailure where
  | invalidCredentials
  | invalidOrDisabled
deriving DecidableEq

def invalidCredStr : List Char := "Invalid credentials".toList

def authFailedStr : List Char := "Authentication failed".toList

def disabledStr : List Char := "Incorrect login or disabled account".toList

/-- `perform_login` immediately after the credential POST (login.py
164-189): the error-text checks run before any Phase-2 work; only past
them does control reach `_extract_duo_info` and the Duo endpoints.
`phase2` is the rest of the login as an oracle: its outcome together with
the number of second-factor (Duo) requests it issues. -/
def afterCredentialPost (respText : List Char)
    (phase2 : Except LoginFailure FormMap × Nat) : Except LoginFailure FormMap × Nat :=
  if containsSub respText invalidCredStr || containsSub respText authFailedStr then
    (.error .invalidCredentials, 0)
  else if containsSub respText disabledStr then
    (.error .invalidOrDisabled, 0)
  else phase2

/-! ## External-call result shapes (`get_balance` / `get_transactions`,
scraper.py 421-462 and 464-626) -/

/-- One entry of the balances list (scraper.py 442/446). -/
structure AccountRec where
  name : List Char
  balance : List Char
deriving DecidableEq

/-- A value in a returned result dict. -/
inductive ApiVal where
  | vstr (s : List Char)
  | vnum (n : Nat)
  | vtxns (l : List TransactionRec)
  | vaccts (l : List AccountRec)
deriving DecidableEq

/-- A returned result dict. -/
abbrev ApiDict := Dict ApiVal

def errKey : List Char := "error".toList

def statusKey : List Char := "status".toList

def txnsKey : List Char := "transactions".toList

def acctsKey : List Char := "accounts".toList

/-- The `except` clauses of both calls (scraper.py 455-462, 619-626):
`SessionExpiredError` becomes `{'error': 'session_expired'}`, any other
exception `{'error': str(e)}`. -/
def errDict : PyExc → ApiDict
  | .sessionExpired => [(errKey, .vstr ("session_expired".toList))]
  | .other m => [(errKey, .vstr m)]

/-- `get_balance` (scraper.py 421-462): fetch the summary page, extract the
accounts (the soup walk of lines 426-446 is the oracle `accountsOf`), and
wrap either outcome in the documented dict shape.  `none`: the model's
response stream ran out. -/
def getBalanceRun (responses : List HttpResponse) (refreshOk : Bool)
    (accountsOf : List Char → Except PyExc (List AccountRec)) (now : List Char) :
    Option ApiDict :=
  match fetchPageCore responses refreshOk with
  | none => none
  | some (.error e, _, _) => some (errDict e)
  | some (.ok html, _, _) =>
    match accountsOf html with
    | .error e => some (errDict e)
    | .ok accounts =>
      some [(acctsKey, .vaccts accounts), ("timestamp".toList, .vstr now),
            (statusKey, .vstr ("success".toList))]

/-- `get_transactions` (scraper.py 464-626): fetch the transaction page,
build the search form (lines 469-543, the oracle `formOf`, whose `error`
is an exception raised there, e.g. `strptime` on a bad date), submit the
search, collect page-1 rows, run the pagination loop, and wrap everything
in the documented dict shape.  A raised exception anywhere discards the
transactions collected so far: the error dict carries none of them. -/
def getTransactionsRun (responses : List HttpResponse) (refreshOk : Bool)
    (formOf : List Char → Except PyExc FormMap)
    (post : FormMap → Except PyExc (List DeltaPart))
    (findTarget : List Char → Nat → Option (List Char))
    (rowsOf : List Char → Except PyExc (List TransactionRec))
    (now beginD endD : List Char) (fuel : Nat) : Option ApiDict :=
  match fetchPageCore responses refreshOk with
  | none => none
  | some (.error e, _, _) => some (errDict e)
  | some (.ok html, _, _) =>
    match formOf html with
    | .error e => some (errDict e)
    | .ok form =>
      match post form with
      | .error e => some (errDict e)
      | .ok delta0 =>
        match rowsFromParts rowsOf delta0 with
        | .error e => some (errDict e)
        | .ok txns0 =>
          match txLoop post findTarget rowsOf fuel form delta0 2 txns0 [] with
          | none => none
          | some (.error e, _) => some (errDict e)
          | some (.ok allTx, _) =>
            some [(txnsKey, .vtxns allTx), ("count".toList, .vnum allTx.length),
                  ("begin_date".toList, .vstr beginD), ("end_date".toList, .vstr endD),
                  ("timestamp".toList, .vstr now), (statusKey, .vstr ("success".toList))]

/-! ## Lemmas about the string primitives -/

theorem findPipe_append (d rest : List Char) (hd : '|' ∉ d) :
    findPipe (d ++ '|' :: rest) = some d.length := by
  induction d with
  | nil => simp [findPipe]
  | cons c d ih =>
    have hc : c ≠ '|' := fun h => hd (h ▸ List.mem_cons_self c d)
    have hd' : '|' ∉ d := fun h => hd (List.mem_cons_of_mem c h)
    simp [findPipe, hc, ih hd']

theorem findPipe_lt_length (l : List Char) (i : Nat) (h : findPipe l = some i) :
    i < l.length := by
  induction l generalizing i with
  | nil => simp [findPipe] at h
  | cons c rest ih =>
    by_cases hc : c = '|'
    · simp only [findPipe, if_pos hc, Option.some.injEq] at h
      simp [← h]
    · rw [findPipe, if_neg hc] at h
      cases hr : findPipe rest with
      | none => rw [hr] at h; simp at h
      | some j =>
        rw [hr] at h
        simp only [Option.map_some', Option.some.injEq] at h
        have := ih j hr
        simp only [List.length_cons]
        omega

theorem pyStart_natCast (len n : Nat) : pyStart len ↑n = n := by
  simp [pyStart]

theorem pyFind_append (pre tail : List Char) :
    pyFind (pre ++ tail) ↑pre.length = (findPipe tail).map (· + pre.length) := by
  simp only [pyFind, List.length_append, pyStart_natCast, List.drop_left]

theorem pyFind_block (pre d rest : List Char) (hd : '|' ∉ d) :
    pyFind (pre ++ (d ++ '|' :: rest)) ↑pre.length = some (pre.length + d.length) := by
  rw [pyFind_append, findPipe_append d rest hd]
  simp [Nat.add_comm]

theorem pyFind_lt_length (text : List Char) (s : Int) (j : Nat) (h : pyFind text s = some j) :
    j < text.length := by
  rw [pyFind] at h
  cases hr : findPipe (text.drop (pyStart text.length s)) with
  | none => rw [hr] at h; simp at h
  | some i =>
    rw [hr] at h
    simp only [Option.map_some', Option.some.injEq] at h
    have hi := findPipe_lt_length _ _ hr
    rw [List.length_drop] at hi
    omega

theorem pyFind_ge_start (text : List Char) (s : Int) (j : Nat) (hs : 0 ≤ s)
    (h : pyFind text s = some j) : s ≤ ↑j := by
  rw [pyFind] at h
  cases hr : findPipe (text.drop (pyStart text.length s)) with
  | none => rw [hr] at h; simp at h
  | some i =>
    rw [hr] at h
    simp only [Option.map_some', Option.some.injEq] at h
    have hst : pyStart text.length s = s.toNat := by
      rw [pyStart, if_neg (not_lt.mpr hs)]
    rw [hst] at h
    omega

theorem pySlice_block (pre mid post : List Char) :
    pySlice (pre ++ (mid ++ post)) ↑pre.length ↑(pre.length + mid.length) = mid := by
  have hlen : (pre ++ (mid ++ post)).length = pre.length + (mid.length + post.length) := by
    simp
  have h1 : sliceIdx (pre ++ (mid ++ post)).length ↑pre.length = pre.length := by
    rw [sliceIdx, if_neg (by omega)]
    rw [hlen]
    simp
  have h2 : sliceIdx (pre ++ (mid ++ post)).length ↑(pre.length + mid.length) =
      pre.length + mid.length := by
    rw [sliceIdx, if_neg (by omega), hlen]
    simp
    omega
  rw [pySlice, h1, h2, List.take_append, List.take_left, List.drop_left]

/-! ## Lemmas about `pyInt` on canonical digits -/

theorem digitChar_digit (k : Nat) (hk : k < 10) : isDigitCh (digitChar k) = true := by
  interval_cases k <;> rfl

theorem digitChar_val (k : Nat) (hk : k < 10) : digitVal (digitChar k) = k := by
  interval_cases k <;> rfl

theorem natDigits_ne_nil (n : Nat) : natDigits n ≠ [] := by
  unfold natDigits
  split <;> simp

theorem natDigits_digits (n : Nat) : ∀ c ∈ natDigits n, isDigitCh c = true := by
  induction n using Nat.strong_induction_on with
  | _ n ih =>
    unfold natDigits
    split
    · next h => simpa using digitChar_digit n h
    · next h =>
      intro c hc
      simp only [List.mem_append, List.mem_singleton] at hc
      rcases hc with hc | rfl
      · exact ih (n / 10) (Nat.div_lt_self (by omega) (by norm_num)) c hc
      · exact digitChar_digit (n % 10) (Nat.mod_lt n (by norm_num))

theorem isDigitCh_ne_pipe (c : Char) (h : isDigitCh c = true) : c ≠ '|' := by
  rintro rfl; simp [isDigitCh] at h

theorem isDigitCh_not_space (c : Char) (h : isDigitCh c = true) : isPySpace c = false := by
  simp only [isDigitCh, Bool.and_eq_true, decide_eq_true_eq] at h
  simp only [isPySpace]
  have h0 : ('0' : Char).toNat = 48 := rfl
  have h9 : ('9' : Char).toNat = 57 := rfl
  obtain ⟨h1, h2⟩ := h
  have h1' : 48 ≤ c.toNat := h1
  have h2' : c.toNat ≤ 57 := h2
  have : ∀ d : Char, c = d → c.toNat = d.toNat := fun d hd => hd ▸ rfl
  simp only [Bool.or_eq_false_iff, decide_eq_false_iff_not]
  refine ⟨⟨⟨⟨⟨?_, ?_⟩, ?_⟩, ?_⟩, ?_⟩, ?_⟩ <;>
    (intro hc; have := this _ hc; revert this; simp; omega)

theorem natDigits_no_pipe (n : Nat) : '|' ∉ natDigits n := by
  intro h
  exact isDigitCh_ne_pipe _ (natDigits_digits n _ h) rfl

theorem dropWhile_of_no_space (l : List Char) (h : ∀ c ∈ l, isPySpace c = false) :
    l.dropWhile isPySpace = l := by
  cases l with
  | nil => rfl
  | cons c t =>
    have := h c (List.mem_cons_self c t)
    simp [List.dropWhile, this]

theorem trimPySpaces_of_digits (l : List Char) (h : ∀ c ∈ l, isDigitCh c = true) :
    trimPySpaces l = l := by
  have hns : ∀ c ∈ l, isPySpace c = false := fun c hc => isDigitCh_not_space c (h c hc)
  have h1 : l.dropWhile isPySpace = l := dropWhile_of_no_space l hns
  have h2 : l.reverse.dropWhile isPySpace = l.reverse :=
    dropWhile_of_no_space _ (fun c hc => hns c (List.mem_reverse.mp hc))
  simp [trimPySpaces, h1, h2]

theorem pyDigits_of_digits (l : List Char) (h : ∀ c ∈ l, isDigitCh c = true) :
    ∀ acc, pyDigits l acc = some (l.foldl (fun a c => a * 10 + digitVal c) acc) := by
  induction l with
  | nil => intro acc; rfl
  | cons c t ih =>
    intro acc
    have hc := h c (List.mem_cons_self c t)
    have hcu : c ≠ '_' := by rintro rfl; simp [isDigitCh] at hc
    have ht := fun c' hc' => h c' (List.mem_cons_of_mem c hc')
    cases t with
    | nil => rw [pyDigits.eq_2, if_neg hcu, if_pos hc]; rfl
    | cons c' t' =>
      rw [pyDigits.eq_3, if_neg hcu, if_pos hc, List.foldl_cons]
      exact ih ht _

theorem natDigits_eq (n : Nat) (h : ¬ n < 10) :
    natDigits n = natDigits (n / 10) ++ [digitChar (n % 10)] := by
  conv_lhs => rw [natDigits]
  rw [dif_neg h]

theorem natDigits_foldl (n : Nat) :
    ∀ acc, (natDigits n).foldl (fun a c => a * 10 + digitVal c) acc =
      acc * 10 ^ (natDigits n).length + n := by
  induction n using Nat.strong_induction_on with
  | _ n ih =>
    intro acc
    by_cases h : n < 10
    · unfold natDigits
      simp [h, digitChar_val n h]
    · have hlt : n / 10 < n := Nat.div_lt_self (by omega) (by norm_num)
      have heq := natDigits_eq n h
      rw [heq, List.foldl_append, ih (n / 10) hlt acc]
      simp only [List.foldl_cons, List.foldl_nil, List.length_append, List.length_singleton]
      rw [digitChar_val (n % 10) (Nat.mod_lt n (by norm_num))]
      have : acc * 10 ^ ((natDigits (n / 10)).length + 1) =
          acc * 10 ^ (natDigits (n / 10)).length * 10 := by ring
      rw [this]
      have hnm : n / 10 * 10 + n % 10 = n := by omega
      omega

theorem pyInt_natDigits (n : Nat) : pyInt (natDigits n) = some (n : Int) := by
  have hd := natDigits_digits n
  unfold pyInt
  rw [trimPySpaces_of_digits _ hd]
  obtain ⟨c, rest, hcr⟩ : ∃ c rest, natDigits n = c :: rest := by
    cases h : natDigits n with
    | nil => exact absurd h (natDigits_ne_nil n)
    | cons c rest => exact ⟨c, rest, rfl⟩
  rw [hcr]
  have hc : isDigitCh c = true := hd c (hcr ▸ List.mem_cons_self c rest)
  have hcp : c ≠ '+' := by rintro rfl; simp [isDigitCh] at hc
  have hcm : c ≠ '-' := by rintro rfl; simp [isDigitCh] at hc
  simp only [if_neg hcp, if_neg hcm, pyIntDigits, hc, if_true]
  rw [pyDigits_of_digits rest (fun c' hc' => hd c' (hcr ▸ List.mem_cons_of_mem c hc'))]
  have : rest.foldl (fun a c => a * 10 + digitVal c) (digitVal c) =
      (c :: rest).foldl (fun a c => a * 10 + digitVal c) 0 := by
    simp [List.foldl_cons]
  rw [this, ← hcr, natDigits_foldl n 0]
  simp

/-! ## The round-trip law for the delta codec -/

theorem readPart_encode (pre E' : List Char) (p : DeltaPart)
    (ht : '|' ∉ p.ptype) (hp : '|' ∉ p.pid) :
    readPart (pre ++ (encodePart p ++ E')) ↑pre.length =
      some (↑p.content.length,
            pre.length + (natDigits p.content.length).length + p.ptype.length + p.pid.length + 3,
            p,
            (pre.length : Int) + ((encodePart p).length : Int)) := by
  obtain ⟨T, I, C⟩ := p
  simp only at ht hp
  have hD : '|' ∉ natDigits C.length := natDigits_no_pipe C.length
  have e0 : pre ++ (encodePart ⟨T, I, C⟩ ++ E') =
      pre ++ (natDigits C.length ++ '|' :: (T ++ '|' :: (I ++ '|' :: (C ++ '|' :: E')))) := by
    simp [encodePart]
  set D := natDigits C.length with hDdef
  set text := pre ++ (D ++ '|' :: (T ++ '|' :: (I ++ '|' :: (C ++ '|' :: E')))) with htext
  have e1 : text = (pre ++ D ++ ['|']) ++ (T ++ '|' :: (I ++ '|' :: (C ++ '|' :: E'))) := by
    simp [htext]
  have e2 : text = (pre ++ D ++ ['|'] ++ T ++ ['|']) ++ (I ++ '|' :: (C ++ '|' :: E')) := by
    simp [htext]
  have e3 : text = (pre ++ D ++ ['|'] ++ T ++ ['|'] ++ I ++ ['|']) ++ (C ++ '|' :: E') := by
    simp [htext]
  have f1 : pyFind text ↑pre.length = some (pre.length + D.length) := by
    rw [htext]
    exact pyFind_block pre D _ hD
  have f2 : pyInt (pySlice text ↑pre.length ↑(pre.length + D.length)) = some ↑C.length := by
    rw [htext]
    rw [show (D ++ '|' :: (T ++ '|' :: (I ++ '|' :: (C ++ '|' :: E')))) =
      D ++ ('|' :: (T ++ '|' :: (I ++ '|' :: (C ++ '|' :: E')))) from rfl]
    rw [pySlice_block pre D _, hDdef, pyInt_natDigits]
  have l1 : (pre ++ D ++ ['|']).length = pre.length + D.length + 1 := by simp; omega
  have f3 : pyFind text (↑(pre.length + D.length) + 1) =
      some (pre.length + D.length + 1 + T.length) := by
    have hc : (↑(pre.length + D.length) + 1 : Int) = ↑((pre ++ D ++ ['|']).length) := by
      rw [l1]; push_cast; ring
    rw [hc, e1, pyFind_block _ T _ ht, l1]
  have f4 : pySlice text (↑(pre.length + D.length) + 1) ↑(pre.length + D.length + 1 + T.length) = T := by
    have hc : (↑(pre.length + D.length) + 1 : Int) = ↑((pre ++ D ++ ['|']).length) := by
      rw [l1]; push_cast; ring
    have hc2 : pre.length + D.length + 1 + T.length = (pre ++ D ++ ['|']).length + T.length := by
      rw [l1]
    rw [hc, hc2, e1, pySlice_block _ T _]
  have l2 : (pre ++ D ++ ['|'] ++ T ++ ['|']).length = pre.length + D.length + 1 + T.length + 1 := by
    simp; omega
  have f5 : pyFind text (↑(pre.length + D.length + 1 + T.length) + 1) =
      some (pre.length + D.length + 1 + T.length + 1 + I.length) := by
    have hc : (↑(pre.length + D.length + 1 + T.length) + 1 : Int) =
        ↑((pre ++ D ++ ['|'] ++ T ++ ['|']).length) := by
      rw [l2]; push_cast; ring
    rw [hc, e2, pyFind_block _ I _ hp, l2]
  have f6 : pySlice text (↑(pre.length + D.length + 1 + T.length) + 1)
      ↑(pre.length + D.length + 1 + T.length + 1 + I.length) = I := by
    have hc : (↑(pre.length + D.length + 1 + T.length) + 1 : Int) =
        ↑((pre ++ D ++ ['|'] ++ T ++ ['|']).length) := by
      rw [l2]; push_cast; ring
    have hc2 : pre.length + D.length + 1 + T.length + 1 + I.length =
        (pre ++ D ++ ['|'] ++ T ++ ['|']).length + I.length := by
      rw [l2]
    rw [hc, hc2, e2, pySlice_block _ I _]
  have l3 : (pre ++ D ++ ['|'] ++ T ++ ['|'] ++ I ++ ['|']).length =
      pre.length + D.length + 1 + T.length + 1 + I.length + 1 := by simp; omega
  have f7 : pySlice text ↑(pre.length + D.length + 1 + T.length + 1 + I.length + 1)
      (↑(pre.length + D.length + 1 + T.length + 1 + I.length + 1) + ↑C.length) = C := by
    have hc : (↑(pre.length + D.length + 1 + T.length + 1 + I.length + 1) : Int) =
        ↑((pre ++ D ++ ['|'] ++ T ++ ['|'] ++ I ++ ['|']).length) := by
      rw [l3]
    have hc2 : (↑(pre.length + D.length + 1 + T.length + 1 + I.length + 1) + ↑C.length : Int) =
        ↑((pre ++ D ++ ['|'] ++ T ++ ['|'] ++ I ++ ['|']).length + C.length) := by
      rw [l3]; push_cast; ring
    rw [hc2, hc, e3, pySlice_block _ C _]
  rw [e0]
  simp only [readPart, f1, f2, f3, f5, f4, f6, f7]
  have hlen : (encodePart (⟨T, I, C⟩ : DeltaPart)).length =
      D.length + T.length + I.length + C.length + 4 := by
    simp only [encodePart, List.length_append, List.length_cons, List.length_nil, ← hDdef]
    omega
  have hpos2 : ((↑(pre.length + D.length + 1 + T.length + 1 + I.length + 1) + ↑C.length + 1) : Int) =
      (pre.length : Int) + ((encodePart (⟨T, I, C⟩ : DeltaPart)).length : Int) := by
    rw [hlen]
    push_cast
    ring
  rw [hpos2]
  have hp3 : pre.length + D.length + 1 + T.length + 1 + I.length + 1 =
      pre.length + D.length + T.length + I.length + 3 := by omega
  rw [hp3]

theorem runParse_encode (ps : List DeltaPart) (h : PartsWF ps) :
    ∀ pre acc, runParse (pre ++ encodeParts ps) (ps.length + 1) ↑pre.length acc =
      some (acc ++ ps) := by
  induction ps with
  | nil =>
    intro pre acc
    simp [encodeParts, runParse]
  | cons p ps ih =>
    intro pre acc
    have hps : PartsWF ps := fun q hq => h q (List.mem_cons_of_mem p hq)
    obtain ⟨hpt, hpi⟩ := h p (List.mem_cons_self p ps)
    have henc : encodeParts (p :: ps) = encodePart p ++ encodeParts ps := by
      simp [encodeParts]
    have hfuel : (p :: ps).length + 1 = (ps.length + 1) + 1 := by simp
    rw [henc, hfuel]
    rw [runParse]
    have hpos : (pre.length : Int) < ((pre ++ (encodePart p ++ encodeParts ps)).length : Int) := by
      have : 0 < (encodePart p).length := by
        simp [encodePart]
      simp only [List.length_append]
      push_cast
      omega
    rw [if_pos hpos, readPart_encode pre (encodeParts ps) p hpt hpi]
    have hshift : ((pre.length : Int) + ((encodePart p).length : Int)) =
        (((pre ++ encodePart p).length : Nat) : Int) := by
      simp only [List.length_append]
      push_cast
      ring
    have hassoc : pre ++ (encodePart p ++ encodeParts ps) =
        (pre ++ encodePart p) ++ encodeParts ps := by
      simp
    rw [hshift, hassoc]
    have hrec := ih hps (pre ++ encodePart p) (acc ++ [p])
    simp only [hrec]
    simp

/-! ## C1: the round-trip law -/

/-- **C1.**  For every delta-response string that is a well-formed
concatenation of `length|type|id|content|` parts (type and id free of the
separator, each length the decimal count of its content),
`_parse_delta_response` returns exactly those parts — the loop finishes
within one iteration per part — and re-encoding each returned part as
`len(content)|type|id|content|` in order reproduces the original input. -/
theorem delta_roundtrip (ps : List DeltaPart) (h : PartsWF ps) :
    ∃ qs, runParse (encodeParts ps) (ps.length + 1) 0 [] = some qs ∧
      encodeParts qs = encodeParts ps := by
  refine ⟨ps, ?_, rfl⟩
  have hmain := runParse_encode ps h [] []
  simpa using hmain

/-- Witness for C1 at a two-part response whose second content itself
contains the separator character. -/
theorem delta_roundtrip_witness :
    ∃ qs,
      runParse
        (encodeParts
          [⟨"hiddenField".toList, "__VIEWSTATE".toList, "dDw=".toList⟩,
           ⟨"updatePanel".toList, "ctl00".toList, "<tr>a|b</tr>".toList⟩])
        (2 + 1) 0 [] =
        some qs ∧
      encodeParts qs =
        encodeParts
          [⟨"hiddenField".toList, "__VIEWSTATE".toList, "dDw=".toList⟩,
           ⟨"updatePanel".toList, "ctl00".toList, "<tr>a|b</tr>".toList⟩] := by
  exact delta_roundtrip _ (by decide)

/-! ## C2: the parse loop is not total -/

theorem readPart_cycle :
    readPart ("0||||-6|||".toList) 5 = some (-6, 10, ⟨[], [], []⟩, 5) := by decide

theorem runParse_cycle_none :
    ∀ fuel acc, runParse ("0||||-6|||".toList) fuel 5 acc = none := by
  intro fuel
  induction fuel with
  | zero => intro _; rfl
  | succ n ih =>
    intro acc
    rw [runParse, if_pos (by decide), readPart_cycle]
    exact ih (acc ++ [⟨[], [], []⟩])

/-- **C2 (refuting totality).**  `_parse_delta_response` never returns on
the input `"0||||-6|||"`: the first part parses with declared length `0`
and leaves `pos = 5`; from there the length field reads `-6`, the content
slice `text[10:4]` is empty, and `pos = 10 + (-6) + 1 = 5` again — the
loop revisits position 5 forever (appending an empty part each pass), for
every iteration bound. -/
theorem parse_delta_nonterminating :
    ∀ fuel, runParse ("0||||-6|||".toList) fuel 0 [] = none := by
  intro fuel
  cases fuel with
  | zero => rfl
  | succ n =>
    have h0 : readPart ("0||||-6|||".toList) 0 = some (0, 4, ⟨[], [], []⟩, 5) := by decide
    rw [runParse, if_pos (by decide), h0]
    exact runParse_cycle_none n ([] ++ [⟨[], [], []⟩])

/-! ## C10: truncated content, and what a negative declared length does -/

/-- **C10 (counterexample).**  On `"-1|t|i|x"` the loop terminates and
appends the part `{type: "t", id: "i", content: ""}` — but its declared
length is `-1` and `len('') = 0 ≰ -1`, so "every returned part satisfies
`len(content) ≤ declared length`" is false (and with such negative lengths
the loop can also revisit positions, see `parse_delta_nonterminating`). -/
theorem negative_length_counterexample :
    runParse ("-1|t|i|x".toList) 3 0 [] = some [⟨['t'], ['i'], []⟩] ∧
    readPart ("-1|t|i|x".toList) 0 = some (-1, 7, ⟨['t'], ['i'], []⟩, 7) ∧
    ¬ (((⟨['t'], ['i'], []⟩ : DeltaPart).content.length : Int) ≤ -1) := by
  refine ⟨by decide, by decide, by decide⟩

theorem pySlice_take (text : List Char) (p3 : Nat) (L : Int) (hp3 : p3 ≤ text.length)
    (hL : 0 ≤ L) : pySlice text ↑p3 (↑p3 + L) = (text.drop p3).take L.toNat := by
  have h1 : sliceIdx text.length ↑p3 = p3 := by
    rw [sliceIdx, if_neg (by omega)]
    simp [Nat.min_eq_left hp3]
  have h2 : sliceIdx text.length (↑p3 + L) = min (p3 + L.toNat) text.length := by
    rw [sliceIdx, if_neg (by omega)]
    congr 1
    omega
  rw [pySlice, h1, h2, List.drop_take]
  rcases le_or_lt (p3 + L.toNat) text.length with hle | hlt
  · rw [Nat.min_eq_left hle]
    congr 1
    omega
  · rw [Nat.min_eq_right (by omega)]
    have hdl : (text.drop p3).length = text.length - p3 := by simp
    rw [List.take_of_length_le (by omega), List.take_of_length_le (by omega)]

/-- **C10 (amended).**  Whenever one pass of the `_parse_delta_response`
loop parses a *nonnegative* declared length `L`, the appended part's
content is the truncated remaining text (`L` characters from the content
start, fewer only when the text ends sooner), so `len(content) ≤ L`, with
equality whenever enough text remains; and the pass strictly advances the
position, so a run all of whose declared lengths are nonnegative cannot
revisit a position.  (For a negative declared length both the inequality
and the advance can fail: `negative_length_counterexample`,
`readPart_cycle`.) -/
theorem truncated_content (text : List Char) (pos L : Int) (p3 : Nat) (p : DeltaPart)
    (pos' : Int) (h : readPart text pos = some (L, p3, p, pos')) (hL : 0 ≤ L) :
    p.content = (text.drop p3).take L.toNat ∧
    p.content.length ≤ L.toNat ∧
    (p3 + L.toNat ≤ text.length → p.content.length = L.toNat) ∧
    pos' = ↑p3 + L + 1 ∧
    (0 ≤ pos → pos < pos') := by
  rw [readPart] at h
  cases h1 : pyFind text pos with
  | none => simp [h1] at h
  | some pipe1 =>
  simp only [h1] at h
  cases h2 : pyInt (pySlice text pos ↑pipe1) with
  | none => simp [h2] at h
  | some len =>
  simp only [h2] at h
  cases h3 : pyFind text (↑pipe1 + 1) with
  | none => simp [h3] at h
  | some pipe2 =>
  simp only [h3] at h
  cases h4 : pyFind text (↑pipe2 + 1) with
  | none => simp [h4] at h
  | some pipe3 =>
  simp only [h4, Option.some.injEq, Prod.mk.injEq] at h
  obtain ⟨hlen, hp3, hpart, hpos'⟩ := h
  subst hlen
  subst hp3
  subst hpart
  subst hpos'
  have hplt : pipe3 < text.length := pyFind_lt_length text _ pipe3 h4
  have hct := pySlice_take text (pipe3 + 1) len (by omega) hL
  refine ⟨hct, ?_, ?_, by push_cast; ring, ?_⟩
  · show (pySlice text ↑(pipe3 + 1) (↑(pipe3 + 1) + len)).length ≤ len.toNat
    rw [hct]
    simp [List.length_take]
  · intro hle
    show (pySlice text ↑(pipe3 + 1) (↑(pipe3 + 1) + len)).length = len.toNat
    rw [hct]
    simp [List.length_take]
    omega
  · intro hpos
    have g1 : pos ≤ ↑pipe1 := pyFind_ge_start text pos pipe1 hpos h1
    have g2 : (↑pipe1 + 1 : Int) ≤ ↑pipe2 := pyFind_ge_start text _ pipe2 (by omega) h3
    have g3 : (↑pipe2 + 1 : Int) ≤ ↑pipe3 := pyFind_ge_start text _ pipe3 (by omega) h4
    omega

/-- Witness for C10 (amended) at `"9|t|i|ab"`: declared length 9, only two
characters remain, the part is appended with the truncated content
`"ab"`. -/
theorem truncated_content_witness :
    (⟨['t'], ['i'], ['a', 'b']⟩ : DeltaPart).content =
      (("9|t|i|ab".toList).drop 6).take (Int.toNat 9) ∧
    (⟨['t'], ['i'], ['a', 'b']⟩ : DeltaPart).content.length ≤ Int.toNat 9 ∧
    (6 + Int.toNat 9 ≤ ("9|t|i|ab".toList).length →
      (⟨['t'], ['i'], ['a', 'b']⟩ : DeltaPart).content.length = Int.toNat 9) ∧
    (16 : Int) = ↑(6 : Nat) + 9 + 1 ∧
    ((0 : Int) ≤ 0 → (0 : Int) < 16) :=
  truncated_content ("9|t|i|ab".toList) 0 9 6 ⟨['t'], ['i'], ['a', 'b']⟩ 16
    (by decide) (by decide)

/-! ## C3: which table rows become transactions -/

/-- **C3 (counterexample).**  A row whose first cell matches the date
pattern but which has fewer than 3 cells is *not* returned (scraper.py
line 405 skips it), so "a row is returned if and only if its first cell
matches the date pattern" fails on the table `[["2/1/2026", "x"]]`. -/
theorem transaction_rows_counterexample :
    parseTransactionRows [["2/1/2026".toList, "x".toList]] = some [] ∧
    matchDate ("2/1/2026".toList) = true := by
  exact ⟨by decide, by decide⟩

theorem mkTransaction_of_six (row : List (List Char)) (h6 : 6 ≤ row.length) :
    ∃ t, mkTransaction row = some t := by
  have h0 : row[0]? = some row[0] := List.getElem?_eq_getElem (by omega)
  have h1 : row[1]? = some row[1] := List.getElem?_eq_getElem (by omega)
  have h3 : row[3]? = some row[3] := List.getElem?_eq_getElem (by omega)
  have h4 : row[4]? = some row[4] := List.getElem?_eq_getElem (by omega)
  have h5 : row[5]? = some row[5] := List.getElem?_eq_getElem (by omega)
  refine ⟨⟨row[0], row[1], row[3], row[4], row[5]⟩, ?_⟩
  rw [mkTransaction]
  rw [h0, h1, h3, h4, h5]
  rfl

/-- **C3 (amended).**  For every table in which each row with at least 3
cells and a date-matching first cell has the 6 cells the extractor indexes,
`_parse_transaction_rows` returns exactly the rows with at least 3 cells
whose first cell matches the date pattern — header and pager rows are
excluded wherever they appear, date-matching rows with fewer than 3 cells
are skipped as well, and a date-matching row with 3-5 cells would instead
raise `IndexError` (`mkTransaction = none`). -/
theorem transaction_rows_filter (table : List (List (List Char)))
    (h : ∀ row ∈ table, 3 ≤ row.length → matchDate (row.headD []) = true → 6 ≤ row.length) :
    parseTransactionRows table = some (table.filterMap rowPick) := by
  induction table with
  | nil => rfl
  | cons row rest ih =>
    have hrest := ih (fun r hr => h r (List.mem_cons_of_mem row hr))
    have hrow := h row (List.mem_cons_self row rest)
    rw [parseTransactionRows, List.filterMap_cons]
    by_cases h3 : row.length < 3
    · rw [if_pos h3, hrest]
      have hpick : rowPick row = none := by
        rw [rowPick, if_neg]
        rintro ⟨h3', _⟩
        omega
      rw [hpick]
    · rw [if_neg h3]
      by_cases hm : matchDate (row.headD []) = true
      · rw [if_pos hm]
        obtain ⟨t, ht⟩ := mkTransaction_of_six row (hrow (by omega) hm)
        have hpick : rowPick row = some t := by
          rw [rowPick, if_pos ⟨by omega, hm⟩]
          exact ht
        rw [ht, hrest, hpick]
        rfl
      · rw [if_neg hm, hrest]
        have hpick : rowPick row = none := by
          rw [rowPick, if_neg]
          rintro ⟨_, hm'⟩
          exact hm hm'
        rw [hpick]

/-- Witness for C3 (amended), the claim's concrete instance: a transaction
page with a date row, the pager row `["Page", "1", "2", "3"]` and the
header row — exactly the date-prefixed row is returned. -/
theorem transaction_rows_filter_witness :
    parseTransactionRows
      [["2/1/2026 3:04 PM".toList, "Dining Dollars".toList, "x".toList, "Brittain".toList,
        "Debit".toList, "-$5.00".toList],
       ["Page".toList, "1".toList, "2".toList, "3".toList],
       ["Date".toList, "Account".toList, "Card".toList, "Location".toList, "Type".toList,
        "Amount".toList]] =
    some [⟨"2/1/2026 3:04 PM".toList, "Dining Dollars".toList, "Brittain".toList,
          "Debit".toList, "-$5.00".toList⟩] := by
  rw [transaction_rows_filter _ (by decide)]
  decide

/-! ## Dictionary lemmas -/

theorem dget_cons_self {α : Type} (k1 : List Char) (v : α) (rest : Dict α) :
    dget ((k1, v) :: rest) k1 = some v := by
  simp [dget]

theorem dget_cons_ne {α : Type} (k1 : List Char) (v : α) (rest : Dict α) (k : List Char)
    (h : k1 ≠ k) : dget ((k1, v) :: rest) k = dget rest k := by
  simp [dget, h]

theorem dget_dset_self {α : Type} (m : Dict α) (k : List Char) (v : α) :
    dget (dset m k v) k = some v := by
  induction m with
  | nil => simp [dset, dget]
  | cons kv rest ih =>
    by_cases hk : kv.1 = k
    · simp [dset, hk, dget]
    · simp [dset, hk, dget, ih]

theorem dget_dset_ne {α : Type} (m : Dict α) (k k' : List Char) (v : α) (h : k ≠ k') :
    dget (dset m k v) k' = dget m k' := by
  induction m with
  | nil => simp [dset, dget, h]
  | cons kv rest ih =>
    simp only [dset]
    by_cases hk : kv.1 = k
    · have hne : kv.1 ≠ k' := by rw [hk]; exact h
      rw [if_pos hk]
      simp [dget, h, hne]
    · rw [if_neg hk]
      by_cases h2 : kv.1 = k'
      · simp [dget, h2]
      · simp [dget, h2, ih]

/-! ## C4: which values each pagination postback carries -/

theorem nextPageForm_fresh (orig : FormMap) (delta : List DeltaPart) (t : List Char) :
    FreshForm orig delta (nextPageForm orig delta t) := by
  unfold FreshForm nextPageForm
  cases hnc : dget (extractDeltaHidden delta) ncKey with
  | none =>
    simp only [hnc]
    refine ⟨?_, ?_, ?_, ?_⟩
    · rw [dget_dset_ne _ _ _ _ (by decide), dget_dset_ne _ _ _ _ (by decide),
        dget_dset_ne _ _ _ _ (by decide), dget_dset_ne _ _ _ _ (by decide),
        dget_dset_ne _ _ _ _ (by decide), dget_dset_self]
    · rw [dget_dset_ne _ _ _ _ (by decide), dget_dset_ne _ _ _ _ (by decide),
        dget_dset_ne _ _ _ _ (by decide), dget_dset_ne _ _ _ _ (by decide),
        dget_dset_self]
    · rw [dget_dset_ne _ _ _ _ (by decide), dget_dset_ne _ _ _ _ (by decide),
        dget_dset_ne _ _ _ _ (by decide), dget_dset_self]
    · rw [dget_dset_ne _ _ _ _ (by decide), dget_dset_ne _ _ _ _ (by decide),
        dget_dset_ne _ _ _ _ (by decide), dget_dset_ne _ _ _ _ (by decide),
        dget_dset_ne _ _ _ _ (by decide), dget_dset_ne _ _ _ _ (by decide)]
  | some v =>
    simp only [hnc]
    by_cases hv : v ≠ []
    · rw [if_pos hv]
      refine ⟨?_, ?_, ?_, ?_⟩
      · rw [dget_dset_ne _ _ _ _ (by decide), dget_dset_ne _ _ _ _ (by decide),
          dget_dset_ne _ _ _ _ (by decide), dget_dset_ne _ _ _ _ (by decide),
          dget_dset_ne _ _ _ _ (by decide), dget_dset_ne _ _ _ _ (by decide),
          dget_dset_self]
      · rw [dget_dset_ne _ _ _ _ (by decide), dget_dset_ne _ _ _ _ (by decide),
          dget_dset_ne _ _ _ _ (by decide), dget_dset_ne _ _ _ _ (by decide),
          dget_dset_ne _ _ _ _ (by decide), dget_dset_self]
      · rw [dget_dset_ne _ _ _ _ (by decide), dget_dset_ne _ _ _ _ (by decide),
          dget_dset_ne _ _ _ _ (by decide), dget_dset_ne _ _ _ _ (by decide),
          dget_dset_self]
      · rw [dget_dset_self, if_pos hv]
    · rw [if_neg hv]
      push_neg at hv
      refine ⟨?_, ?_, ?_, ?_⟩
      · rw [dget_dset_ne _ _ _ _ (by decide), dget_dset_ne _ _ _ _ (by decide),
          dget_dset_ne _ _ _ _ (by decide), dget_dset_ne _ _ _ _ (by decide),
          dget_dset_ne _ _ _ _ (by decide), dget_dset_self]
      · rw [dget_dset_ne _ _ _ _ (by decide), dget_dset_ne _ _ _ _ (by decide),
          dget_dset_ne _ _ _ _ (by decide), dget_dset_ne _ _ _ _ (by decide),
          dget_dset_self]
      · rw [dget_dset_ne _ _ _ _ (by decide), dget_dset_ne _ _ _ _ (by decide),
        dget_dset_ne _ _ _ _ (by decide), dget_dset_self]
      · rw [dget_dset_ne _ _ _ _ (by decide), dget_dset_ne _ _ _ _ (by decide),
          dget_dset_ne _ _ _ _ (by decide), dget_dset_ne _ _ _ _ (by decide),
          dget_dset_ne _ _ _ _ (by decide), dget_dset_ne _ _ _ _ (by decide)]
        simp [hv]

/-- The trace accumulator is write-only: a run started with trace `acc`
returns `acc ++` whatever a run started empty returns. -/
theorem txLoop_acc (post : FormMap → Except PyExc (List DeltaPart))
    (findTarget : List Char → Nat → Option (List Char))
    (rowsOf : List Char → Except PyExc (List TransactionRec)) :
    ∀ fuel orig delta pageNum allTx acc,
      txLoop post findTarget rowsOf fuel orig delta pageNum allTx acc =
        (txLoop post findTarget rowsOf fuel orig delta pageNum allTx []).map
          (fun r => (r.1, acc ++ r.2)) := by
  intro fuel
  induction fuel with
  | zero => intro orig delta pn tx acc; rfl
  | succ n ih =>
    intro orig delta pn tx acc
    simp only [txLoop]
    by_cases hrh : lastResultHtml delta = []
    · rw [if_pos hrh, if_pos hrh]
      simp
    · rw [if_neg hrh, if_neg hrh]
      cases hft : findTarget (lastResultHtml delta) pn with
      | none => simp [hft]
      | some target =>
        simp only [hft]
        cases hpost : post (nextPageForm orig delta target) with
        | error e => simp [hpost]
        | ok delta' =>
          simp only [hpost]
          cases hrows : rowsFromParts rowsOf delta' with
          | error e => simp [hrows]
          | ok pageTx =>
            simp only [hrows]
            by_cases hpt : pageTx = []
            · rw [if_pos hpt, if_pos hpt]
              simp
            · rw [if_neg hpt, if_neg hpt]
              simp only [List.nil_append]
              rw [ih orig delta' (pn + 1) (tx ++ pageTx)
                  (acc ++ [(delta, nextPageForm orig delta target)]),
                ih orig delta' (pn + 1) (tx ++ pageTx)
                  [(delta, nextPageForm orig delta target)]]
              cases txLoop post findTarget rowsOf n orig delta' (pn + 1) (tx ++ pageTx) [] with
              | none => simp
              | some r => simp

/-- **C4 (amended).**  Every form the pagination loop submits after the
first search postback satisfies the freshest-with-fallback discipline
(`FreshForm`) with respect to the delta response recorded next to it in
the trace; the first trace entry's delta is the response to the initial
search postback, and consecutive trace entries are linked by `pageRel` —
each later form was built from exactly the response to the immediately
preceding postback.  (That the four fields come from the *latest* response
whenever it carries them, and otherwise fall back to the original page's
values, is the content of `FreshForm`; the unamended "never the original
page's values" fails, see the counterexample.) -/
theorem pagination_fresh_fields (post : FormMap → Except PyExc (List DeltaPart))
    (findTarget : List Char → Nat → Option (List Char))
    (rowsOf : List Char → Except PyExc (List TransactionRec)) :
    ∀ fuel orig delta pageNum allTx out trace,
      txLoop post findTarget rowsOf fuel orig delta pageNum allTx [] = some (out, trace) →
      (∀ pr ∈ trace, FreshForm orig pr.1 pr.2) ∧
      (trace = [] ∨ (trace.head?.map Prod.fst = some delta)) ∧
      List.Chain' (pageRel post) trace := by
  intro fuel
  induction fuel with
  | zero =>
    intro orig delta pn tx out trace h
    simp [txLoop] at h
  | succ n ih =>
    intro orig delta pn tx out trace h
    simp only [txLoop] at h
    split at h
    · simp only [Option.some.injEq, Prod.mk.injEq] at h
      obtain ⟨-, htr⟩ := h
      subst htr
      exact ⟨by simp, Or.inl rfl, List.chain'_nil⟩
    · split at h
      · simp only [Option.some.injEq, Prod.mk.injEq] at h
        obtain ⟨-, htr⟩ := h
        subst htr
        exact ⟨by simp, Or.inl rfl, List.chain'_nil⟩
      · next target hft =>
        split at h
        · next e hpost =>
          simp only [List.nil_append, Option.some.injEq, Prod.mk.injEq] at h
          obtain ⟨-, htr⟩ := h
          subst htr
          refine ⟨?_, Or.inr rfl, List.chain'_singleton _⟩
          intro pr hpr
          simp only [List.mem_singleton] at hpr
          subst hpr
          exact nextPageForm_fresh orig delta target
        · next delta' hpost =>
          split at h
          · next e hrows =>
            simp only [List.nil_append, Option.some.injEq, Prod.mk.injEq] at h
            obtain ⟨-, htr⟩ := h
            subst htr
            refine ⟨?_, Or.inr rfl, List.chain'_singleton _⟩
            intro pr hpr
            simp only [List.mem_singleton] at hpr
            subst hpr
            exact nextPageForm_fresh orig delta target
          · next pageTx hrows =>
            split at h
            · simp only [List.nil_append, Option.some.injEq, Prod.mk.injEq] at h
              obtain ⟨-, htr⟩ := h
              subst htr
              refine ⟨?_, Or.inr rfl, List.chain'_singleton _⟩
              intro pr hpr
              simp only [List.mem_singleton] at hpr
              subst hpr
              exact nextPageForm_fresh orig delta target
            · rw [txLoop_acc] at h
              cases hrun : txLoop post findTarget rowsOf n orig delta' (pn + 1) (tx ++ pageTx) []
                with
              | none => rw [hrun] at h; simp at h
              | some r =>
                rw [hrun] at h
                simp only [Option.map_some', Option.some.injEq, Prod.mk.injEq] at h
                obtain ⟨hout, htr⟩ := h
                obtain ⟨fresh2, head2, chain2⟩ := ih orig delta' (pn + 1) (tx ++ pageTx) r.1 r.2
                  (by rw [hrun])
                subst htr
                refine ⟨?_, Or.inr (by simp), ?_⟩
                · intro pr hpr
                  simp only [List.nil_append, List.singleton_append, List.mem_cons] at hpr
                  rcases hpr with rfl | hpr
                  · exact nextPageForm_fresh orig delta target
                  · exact fresh2 pr hpr
                · simp only [List.nil_append, List.singleton_append]
                  rw [List.chain'_cons']
                  refine ⟨?_, chain2⟩
                  intro y hy
                  rcases head2 with htr0 | hhd
                  · rw [htr0] at hy
                    simp at hy
                  · cases hr2 : r.2 with
                    | nil => rw [hr2] at hy; simp at hy
                    | cons a rest =>
                      rw [hr2] at hy
                      simp only [List.head?_cons, Option.mem_def, Option.some.injEq] at hy
                      rw [hr2] at hhd
                      simp only [List.head?_cons, Option.map_some', Option.some.injEq] at hhd
                      show post (nextPageForm orig delta target) = .ok y.1
                      rw [hpost, ← hy, hhd]

/-- **C4 (counterexample).**  When the immediately preceding postback's
delta response carries no `hiddenField` parts at all, the next postback's
`__VIEWSTATE` is the *original* page's value (`updated.get` falls back to
`form_data[...]`, scraper.py 584-586) — refuting "never the original
page's values": the second-ever postback here submits `V0`, which the
preceding delta response did not return. -/
theorem pagination_fallback_counterexample :
    (txLoop (fun _ => .ok []) (fun _ n => if n = 2 then some ("tgt2".toList) else none)
        (fun _ => .ok []) 5
        [(vsKey, "V0".toList), (evKey, "E0".toList), (vsgKey, "G0".toList)]
        ([⟨updatePanelStr, "p1".toList, "ResultRadGrid <tr>".toList⟩] : List DeltaPart)
        2 [] []).map (fun r => r.2.map (fun pr => dget pr.2 vsKey)) =
      some [some ("V0".toList)] ∧
    dget (extractDeltaHidden [⟨updatePanelStr, "p1".toList, "ResultRadGrid <tr>".toList⟩])
      vsKey = none := by
  exact ⟨by decide, by decide⟩

/-- Witness for C4 (amended) at a concrete one-page run. -/
theorem pagination_fresh_fields_witness :
    FreshForm [(vsKey, "V0".toList), (evKey, "E0".toList), (vsgKey, "G0".toList)]
      [⟨updatePanelStr, "p1".toList, "ResultRadGrid <tr>".toList⟩]
      (nextPageForm [(vsKey, "V0".toList), (evKey, "E0".toList), (vsgKey, "G0".toList)]
        [⟨updatePanelStr, "p1".toList, "ResultRadGrid <tr>".toList⟩] ("tgt2".toList)) :=
  (pagination_fresh_fields (fun _ => .ok [])
    (fun _ n => if n = 2 then some ("tgt2".toList) else none) (fun _ => .ok []) 5
    [(vsKey, "V0".toList), (evKey, "E0".toList), (vsgKey, "G0".toList)]
    [⟨updatePanelStr, "p1".toList, "ResultRadGrid <tr>".toList⟩] 2 [] (.ok [])
    [([⟨updatePanelStr, "p1".toList, "ResultRadGrid <tr>".toList⟩],
      nextPageForm [(vsKey, "V0".toList), (evKey, "E0".toList), (vsgKey, "G0".toList)]
        [⟨updatePanelStr, "p1".toList, "ResultRadGrid <tr>".toList⟩] ("tgt2".toList))]
    rfl).1 _ (List.mem_singleton.mpr rfl)

/-! ## C5: one refresh cycle, one retry -/

/-- **C5.**  When a GET returns 200 with the auto-submitting assertion form
in the body, `_fetch_page` attempts exactly one `_refresh_via_saml` cycle
and retries the GET exactly once (2 GETs, 1 refresh — any further queued
responses `rest` are never consumed): if the retried response is clean and
200 its body is returned, and if it again carries the assertion form the
fetch raises `SessionExpiredError` without a second refresh. -/
theorem fetch_retry_once (r1 r2 : HttpResponse) (rest : List HttpResponse)
    (h1 : r1.status = 200) (hs1 : samlSignature r1.body = true) :
    (samlSignature r2.body = true →
      fetchPageCore (r1 :: r2 :: rest) true = some (.error .sessionExpired, 2, 1)) ∧
    (samlSignature r2.body = false → r2.status = 200 →
      fetchPageCore (r1 :: r2 :: rest) true = some (.ok r2.body, 2, 1)) := by
  constructor
  · intro hs2
    simp [fetchPageCore, h1, hs1, hs2]
  · intro hs2 h2
    simp [fetchPageCore, h1, hs1, hs2, h2]

/-- Witness for C5: a SAML-redirect body, then a clean page; a queued third
response goes unread. -/
theorem fetch_retry_once_witness :
    fetchPageCore
      [⟨200, [], "<script>document.forms.theform.submit()</script> IdP".toList⟩,
       ⟨200, [], "<div>Account Summary</div>".toList⟩,
       ⟨500, [], []⟩] true =
      some (.ok ("<div>Account Summary</div>".toList), 2, 1) :=
  (fetch_retry_once
      ⟨200, [], "<script>document.forms.theform.submit()</script> IdP".toList⟩
      ⟨200, [], "<div>Account Summary</div>".toList⟩
      [⟨500, [], []⟩] rfl (by decide)).2 (by decide) rfl

/-! ## C6: the refresh contract -/

/-- **C6.**  `_refresh_via_saml` returns fresh target cookies or raises
`SessionExpiredError`, nothing else (every other exception is converted at
scraper.py 190-196); when the replayed chain yields a SAML assertion and
completing it produces cookies, refresh succeeds with exactly those
cookies — no second-factor interaction exists anywhere on this path — and
when the chain instead lands on a login page, refresh raises
`SessionExpiredError`. -/
theorem refresh_contract (ssoLoaded reqFormFound : Bool)
    (postResult : Except PyExc (List Char × Bool)) (flowResult : Except PyExc FormMap)
    (jar : FormMap) :
    ((∃ c, refreshViaSaml ssoLoaded reqFormFound postResult flowResult jar = .ok c) ∨
      refreshViaSaml ssoLoaded reqFormFound postResult flowResult jar =
        .error .sessionExpired) ∧
    (∀ url cookies, ssoLoaded = true → reqFormFound = true →
      postResult = .ok (url, true) → flowResult = .ok cookies → cookies ≠ [] →
      refreshViaSaml ssoLoaded reqFormFound postResult flowResult jar = .ok cookies) ∧
    (∀ url, ssoLoaded = true → reqFormFound = true → postResult = .ok (url, false) →
      containsSub url ("transactcampus.com".toList) = false →
      containsSub (toLowerL url) ("login".toList) = true →
      refreshViaSaml ssoLoaded reqFormFound postResult flowResult jar =
        .error .sessionExpired) := by
  refine ⟨?_, ?_, ?_⟩
  · cases ssoLoaded with
    | false => right; rfl
    | true =>
      cases reqFormFound with
      | false => right; rfl
      | true =>
        cases hb : refreshBody postResult flowResult jar with
        | ok c => exact Or.inl ⟨c, by simp [refreshViaSaml, hb]⟩
        | error e => cases e <;> exact Or.inr (by simp [refreshViaSaml, hb])
  · intro url cookies hst hrt hpost hflow hne
    subst hst
    subst hrt
    subst hpost
    subst hflow
    have hemp : cookies.isEmpty = false := by
      cases cookies with
      | nil => exact absurd rfl hne
      | cons a t => rfl
    simp [refreshViaSaml, refreshBody, hemp]
  · intro url hst hrt hpost hnc hlog
    subst hst
    subst hrt
    subst hpost
    have htail : refreshTail url jar = .error .sessionExpired := by
      have hc1 : ¬ ((containsSub url ("transactcampus.com".toList) && !jar.isEmpty) = true) := by
        rw [hnc]
        simp
      rw [refreshTail, if_neg hc1, if_pos (by rw [hlog]; simp)]
    simp [refreshViaSaml, refreshBody, htail]

/-- Witness for C6 at a valid-session run and an expired-session run. -/
theorem refresh_contract_witness :
    refreshViaSaml true true
        (.ok ("https://eacct-buzzcard-sp.transactcampus.com/buzzcard".toList, true))
        (.ok [("ASP.NET_SessionId".toList, "abc123".toList)]) [] =
      .ok [("ASP.NET_SessionId".toList, "abc123".toList)] ∧
    refreshViaSaml true true (.ok ("https://sso.gatech.edu/cas/login".toList, false))
        (.ok []) [] =
      .error .sessionExpired :=
  ⟨(refresh_contract true true
      (.ok ("https://eacct-buzzcard-sp.transactcampus.com/buzzcard".toList, true))
      (.ok [("ASP.NET_SessionId".toList, "abc123".toList)]) []).2.1 _ _
      rfl rfl rfl rfl (by decide),
   (refresh_contract true true (.ok ("https://sso.gatech.edu/cas/login".toList, false))
      (.ok []) []).2.2 _ rfl rfl rfl (by decide) (by decide)⟩

/-! ## C7: the polling loop against its budget -/

theorem duoPollLoop_no_hang (status : Nat → List Char) (lat : Nat → ℚ) (resultUrl : Bool)
    (hlat : ∀ i, 0 ≤ lat i) :
    ∀ (fuel i : Nat) (e : ℚ) (acc : List ℚ), 90 ≤ e + 3 * (fuel : ℚ) →
      ∀ acc', duoPollLoop status lat resultUrl fuel i e acc ≠ .hungOutOfFuel acc' := by
  intro fuel
  induction fuel with
  | zero =>
    intro i e acc hbound acc'
    have h90 : ¬ e < 90 := by
      push_cast at hbound
      linarith
    simp [duoPollLoop, h90]
  | succ n ih =>
    intro i e acc hbound acc'
    rw [duoPollLoop]
    by_cases he : e < 90
    · rw [if_pos he]
      by_cases ha : status i = "allow".toList
      · rw [if_pos ha]
        cases resultUrl <;> simp
      · rw [if_neg ha]
        by_cases hd : status i = "deny".toList
        · rw [if_pos hd]; simp
        · rw [if_neg hd]
          by_cases ht : status i = "timeout".toList
          · rw [if_pos ht]; simp
          · rw [if_neg ht]
            refine ih (i + 1) (e + 3 + lat i) (acc ++ [e + 3]) ?_ acc'
            have := hlat i
            push_cast at hbound ⊢
            linarith
    · rw [if_neg he]
      simp

theorem duoPollLoop_pending (status : Nat → List Char) (lat : Nat → ℚ) (resultUrl : Bool)
    (hpend : ∀ i, status i ≠ "allow".toList ∧ status i ≠ "deny".toList ∧
      status i ≠ "timeout".toList) :
    ∀ fuel i e acc, (∃ ts, duoPollLoop status lat resultUrl fuel i e acc = .hungOutOfFuel ts) ∨
      (∃ ts, duoPollLoop status lat resultUrl fuel i e acc = .challengeTimedOut ts) := by
  intro fuel
  induction fuel with
  | zero =>
    intro i e acc
    by_cases he : e < 90
    · exact Or.inl ⟨acc, by simp [duoPollLoop, he]⟩
    · exact Or.inr ⟨acc, by simp [duoPollLoop, he]⟩
  | succ n ih =>
    intro i e acc
    obtain ⟨ha, hd, ht⟩ := hpend i
    by_cases he : e < 90
    · rw [duoPollLoop, if_pos he, if_neg ha, if_neg hd, if_neg ht]
      exact ih (i + 1) (e + 3 + lat i) (acc ++ [e + 3])
    · exact Or.inr ⟨acc, by rw [duoPollLoop, if_neg he]⟩

/-- **C7 (amended).**  With the clock as elapsed seconds and each status
POST taking `lat i ≥ 0` seconds: given `{pending, pending, allow}` and
latencies keeping the budget checks under 90 s, the loop issues exactly 3
polls, at times `3, 6 + lat 0, 9 + lat 0 + lat 1` — consecutive polls at
least 3 s apart — and then proceeds immediately to the result fetch; and
with only pending statuses, 31 iterations always suffice: the loop never
hangs and terminates with the `ChallengeTimedOut` error once a budget
check sees 90 s elapsed.  (The unamended "no poll past the 90 s budget"
fails: a poll can be issued up to interval + latency after the last
under-budget check, see the counterexample.) -/
theorem duo_poll_budget (status : Nat → List Char) (lat : Nat → ℚ)
    (hlat : ∀ i, 0 ≤ lat i) :
    ((status 0 ≠ "allow".toList ∧ status 0 ≠ "deny".toList ∧ status 0 ≠ "timeout".toList) →
     (status 1 ≠ "allow".toList ∧ status 1 ≠ "deny".toList ∧ status 1 ≠ "timeout".toList) →
     status 2 = "allow".toList → 3 + lat 0 < 90 → 6 + lat 0 + lat 1 < 90 →
     duoPollLoop status lat true 31 0 0 [] =
       .approvedFetch [3, 6 + lat 0, 9 + lat 0 + lat 1] (9 + lat 0 + lat 1 + lat 2) ∧
     List.Chain' (fun a b => a + 3 ≤ b) [3, 6 + lat 0, 9 + lat 0 + lat 1]) ∧
    ((∀ i, status i ≠ "allow".toList ∧ status i ≠ "deny".toList ∧
        status i ≠ "timeout".toList) →
     ∃ ts, duoPollLoop status lat true 31 0 0 [] = .challengeTimedOut ts) := by
  constructor
  · rintro ⟨h0a, h0d, h0t⟩ ⟨h1a, h1d, h1t⟩ h2 hb1 hb2
    have l0 := hlat 0
    have l1 := hlat 1
    constructor
    · rw [duoPollLoop, if_pos (by norm_num), if_neg h0a, if_neg h0d, if_neg h0t]
      rw [duoPollLoop, if_pos (by linarith), if_neg h1a, if_neg h1d, if_neg h1t]
      rw [duoPollLoop, if_pos (by linarith), if_pos h2]
      simp only [if_pos rfl]
      norm_num
      exact ⟨by ring, by ring⟩
    · refine List.chain'_cons.mpr ⟨by linarith, ?_⟩
      refine List.chain'_cons.mpr ⟨by linarith, List.chain'_singleton _⟩
  · intro hp
    have hnh := duoPollLoop_no_hang status lat true hlat 31 0 0 [] (by norm_num)
    rcases duoPollLoop_pending status lat true hp 31 0 0 [] with ⟨ts, hts⟩ | h
    · exact absurd hts (hnh ts)
    · exact h

/-- **C7 (counterexample).**  With every status POST taking 2.5 s and the
push never answered, the budget check at 88 s elapsed still passes, so the
17th poll is issued at 91 s — *after* the 90 s budget — and the loop then
returns `ChallengeTimedOut`.  This refutes "issuing no poll past the 90 s
budget": the code only guarantees no poll is *started* from a check that
already saw the budget exhausted. -/
theorem duo_poll_late_poll_counterexample :
    duoPollLoop (fun _ => "pushed".toList) (fun _ => 5 / 2) true 31 0 0 [] =
      .challengeTimedOut
        [3, 17/2, 14, 39/2, 25, 61/2, 36, 83/2, 47, 105/2, 58, 127/2, 69, 149/2, 80,
         171/2, 91] ∧
    (90 : ℚ) < 91 := by
  refine ⟨?_, by norm_num⟩
  have hpa : ¬ ("pushed".toList = "allow".toList) := by decide
  have hpd : ¬ ("pushed".toList = "deny".toList) := by decide
  have hpt : ¬ ("pushed".toList = "timeout".toList) := by decide
  have hca : ('p' : Char) ≠ 'a' := by decide
  have hcd : ('p' : Char) ≠ 'd' := by decide
  have hct : ('p' : Char) ≠ 't' := by decide
  norm_num [duoPollLoop, hpa, hpd, hpt, hca, hcd, hct]

/-- Witness for C7 (amended) at zero latency: polls at 3, 6, 9 s, then the
result fetch at 9 s. -/
theorem duo_poll_budget_witness :
    duoPollLoop (fun i => if i = 2 then "allow".toList else "pushed".toList) (fun _ => 0)
        true 31 0 0 [] =
      .approvedFetch [3, 6 + 0, 9 + 0 + 0] (9 + 0 + 0 + 0) ∧
    List.Chain' (fun a b => a + 3 ≤ b) [(3 : ℚ), 6 + 0, 9 + 0 + 0] :=
  ((duo_poll_budget (fun i => if i = 2 then "allow".toList else "pushed".toList)
      (fun _ => 0) (fun _ => le_refl 0)).1
    (by refine ⟨?_, ?_, ?_⟩ <;> decide) (by refine ⟨?_, ?_, ?_⟩ <;> decide) (by decide)
    (by norm_num) (by norm_num))

/-! ## C8: invalid credentials are terminal and precede the second factor -/

/-- **C8.**  If the credential-submission response contains
`"Invalid credentials"`, `perform_login` raises the invalid-credentials
`LoginError` right there (login.py 165-166): whatever the rest of the
login would have done, the result is that error, zero second-factor
requests are issued, and there is no internal retry — the outcome does not
depend on the `phase2` continuation at all. -/
theorem invalid_credentials_terminal (respText : List Char)
    (h : containsSub respText invalidCredStr = true) :
    ∀ phase2, afterCredentialPost respText phase2 = (.error .invalidCredentials, 0) := by
  intro phase2
  simp [afterCredentialPost, h]

/-- Witness for C8: a CAS error page, against a continuation that would
have succeeded after 5 second-factor requests. -/
theorem invalid_credentials_terminal_witness :
    afterCredentialPost ("<div id=status>Invalid credentials</div>".toList)
        (.ok [("c".toList, "v".toList)], 5) = (.error .invalidCredentials, 0) :=
  invalid_credentials_terminal ("<div id=status>Invalid credentials</div>".toList)
    (by decide) (.ok [("c".toList, "v".toList)], 5)

/-! ## C9: every external call returns a structured result -/

theorem errDict_shape (e : PyExc) :
    (∃ m, dget (errDict e) errKey = some (.vstr m)) ∧
    dget (errDict e) txnsKey = none ∧ dget (errDict e) acctsKey = none ∧
    dget (errDict e) statusKey = none := by
  cases e with
  | sessionExpired =>
    refine ⟨⟨_, dget_cons_self _ _ _⟩, ?_, ?_, ?_⟩ <;>
      · rw [errDict, dget_cons_ne _ _ _ _ (by decide)]
        rfl
  | other m =>
    refine ⟨⟨m, dget_cons_self _ _ _⟩, ?_, ?_, ?_⟩ <;>
      · rw [errDict, dget_cons_ne _ _ _ _ (by decide)]
        rfl

/-- **C9.**  Both external calls always return a structured dict (or, in
the fuel-bounded model, are still running): either the success shape —
`status: success`, no `error` key, and for `get_transactions` a
transactions list — or an error shape `{error: …}` that carries *no*
transactions, no accounts and no status: transactions gathered before a
mid-pagination failure are discarded, never returned partially.  No
exception crosses either call's boundary: every raised `PyExc` lands in
the `errDict` arm. -/
theorem structured_results (responses : List HttpResponse) (refreshOk : Bool)
    (accountsOf : List Char → Except PyExc (List AccountRec))
    (formOf : List Char → Except PyExc FormMap)
    (post : FormMap → Except PyExc (List DeltaPart))
    (findTarget : List Char → Nat → Option (List Char))
    (rowsOf : List Char → Except PyExc (List TransactionRec))
    (now beginD endD : List Char) (fuel : Nat) :
    (getBalanceRun responses refreshOk accountsOf now = none ∨
      ∃ d, getBalanceRun responses refreshOk accountsOf now = some d ∧
        ((dget d statusKey = some (.vstr ("success".toList)) ∧ dget d errKey = none) ∨
         (∃ m, dget d errKey = some (.vstr m) ∧ dget d txnsKey = none ∧
           dget d acctsKey = none ∧ dget d statusKey = none))) ∧
    (getTransactionsRun responses refreshOk formOf post findTarget rowsOf now beginD endD
        fuel = none ∨
      ∃ d, getTransactionsRun responses refreshOk formOf post findTarget rowsOf now beginD
          endD fuel = some d ∧
        ((dget d statusKey = some (.vstr ("success".toList)) ∧ dget d errKey = none ∧
          ∃ l, dget d txnsKey = some (.vtxns l)) ∨
         (∃ m, dget d errKey = some (.vstr m) ∧ dget d txnsKey = none ∧
           dget d acctsKey = none ∧ dget d statusKey = none))) := by
  constructor
  · cases hf : fetchPageCore responses refreshOk with
    | none => exact Or.inl (by simp [getBalanceRun, hf])
    | some r =>
      obtain ⟨res, g, rf⟩ := r
      cases res with
      | error e =>
        refine Or.inr ⟨errDict e, by simp [getBalanceRun, hf], Or.inr ?_⟩
        obtain ⟨⟨m, hm⟩, h1, h2, h3⟩ := errDict_shape e
        exact ⟨m, hm, h1, h2, h3⟩
      | ok html =>
        cases ha : accountsOf html with
        | error e =>
          refine Or.inr ⟨errDict e, by simp [getBalanceRun, hf, ha], Or.inr ?_⟩
          obtain ⟨⟨m, hm⟩, h1, h2, h3⟩ := errDict_shape e
          exact ⟨m, hm, h1, h2, h3⟩
        | ok accounts =>
          refine Or.inr ⟨[(acctsKey, .vaccts accounts), ("timestamp".toList, .vstr now),
            (statusKey, .vstr ("success".toList))],
            by simp [getBalanceRun, hf, ha], Or.inl ⟨?_, ?_⟩⟩
          · rw [dget_cons_ne _ _ _ _ (by decide), dget_cons_ne _ _ _ _ (by decide),
              dget_cons_self]
          · rw [dget_cons_ne _ _ _ _ (by decide), dget_cons_ne _ _ _ _ (by decide),
              dget_cons_ne _ _ _ _ (by decide)]
            rfl
  · cases hf : fetchPageCore responses refreshOk with
    | none => exact Or.inl (by simp [getTransactionsRun, hf])
    | some r =>
      obtain ⟨res, g, rf⟩ := r
      cases res with
      | error e =>
        refine Or.inr ⟨errDict e, by simp [getTransactionsRun, hf], Or.inr ?_⟩
        obtain ⟨⟨m, hm⟩, h1, h2, h3⟩ := errDict_shape e
        exact ⟨m, hm, h1, h2, h3⟩
      | ok html =>
        cases hform : formOf html with
        | error e =>
          refine Or.inr ⟨errDict e, by simp [getTransactionsRun, hf, hform], Or.inr ?_⟩
          obtain ⟨⟨m, hm⟩, h1, h2, h3⟩ := errDict_shape e
          exact ⟨m, hm, h1, h2, h3⟩
        | ok form =>
          cases hpost : post form with
          | error e =>
            refine Or.inr ⟨errDict e, by simp [getTransactionsRun, hf, hform, hpost],
              Or.inr ?_⟩
            obtain ⟨⟨m, hm⟩, h1, h2, h3⟩ := errDict_shape e
            exact ⟨m, hm, h1, h2, h3⟩
          | ok delta0 =>
            cases hrows : rowsFromParts rowsOf delta0 with
            | error e =>
              refine Or.inr ⟨errDict e,
                by simp [getTransactionsRun, hf, hform, hpost, hrows], Or.inr ?_⟩
              obtain ⟨⟨m, hm⟩, h1, h2, h3⟩ := errDict_shape e
              exact ⟨m, hm, h1, h2, h3⟩
            | ok txns0 =>
              cases hloop : txLoop post findTarget rowsOf fuel form delta0 2 txns0 [] with
              | none =>
                exact Or.inl (by simp [getTransactionsRun, hf, hform, hpost, hrows, hloop])
              | some lr =>
                obtain ⟨lres, ltrace⟩ := lr
                cases lres with
                | error e =>
                  refine Or.inr ⟨errDict e,
                    by simp [getTransactionsRun, hf, hform, hpost, hrows, hloop], Or.inr ?_⟩
                  obtain ⟨⟨m, hm⟩, h1, h2, h3⟩ := errDict_shape e
                  exact ⟨m, hm, h1, h2, h3⟩
                | ok allTx =>
                  refine Or.inr ⟨[(txnsKey, .vtxns allTx), ("count".toList, .vnum allTx.length),
                    ("begin_date".toList, .vstr beginD), ("end_date".toList, .vstr endD),
                    ("timestamp".toList, .vstr now), (statusKey, .vstr ("success".toList))],
                    by simp [getTransactionsRun, hf, hform, hpost, hrows, hloop],
                    Or.inl ⟨?_, ?_, ⟨allTx, ?_⟩⟩⟩
                  · rw [dget_cons_ne _ _ _ _ (by decide), dget_cons_ne _ _ _ _ (by decide),
                      dget_cons_ne _ _ _ _ (by decide), dget_cons_ne _ _ _ _ (by decide),
                      dget_cons_ne _ _ _ _ (by decide), dget_cons_self]
                  · rw [dget_cons_ne _ _ _ _ (by decide), dget_cons_ne _ _ _ _ (by decide),
                      dget_cons_ne _ _ _ _ (by decide), dget_cons_ne _ _ _ _ (by decide),
                      dget_cons_ne _ _ _ _ (by decide), dget_cons_ne _ _ _ _ (by decide)]
                    rfl
                  · rw [dget_cons_self]

end EAccounts
